import Mathlib

/-!
Verification of the EDA notebook `eda_air_py.ipynb`.

The notebook loads a geospatial table of ground-monitor PM2.5 readings
(`pm_gdf`), casts its int- and object-typed columns to categorical dtype,
projects `['iso3','super_region_name','cluster_region']` and drops duplicate
`iso3` rows to obtain `countries`, left-merges the Natural Earth world map
(`world_map_gdf`) with `countries` on `ISO_A3 = iso3`, backfills the null
entries of the two region columns with the fresh categories `7` and `"NA"`,
and then renders a sequence of read-only tables and plots.

This file embeds those operations shallowly: tables are lists of records,
nullable entries are `Option`, the categorical dtype is a pair of a category
list and a value list, and fallible pandas calls return `Except`.
-/

/-- Uninterpreted carrier for floating-point cell values.  The notebook's
join, de-duplication and backfill logic never computes with floats; float
cells are only transported, so they are modelled as opaque tokens. -/
abbrev FloatRepr := Int

/-- One row of `pm_gdf`, as loaded from `data/air_spdf.geojson`: ISO country
code, location name, coordinates, ground and satellite PM2.5 readings with
their logs, the WHO super-region name and the two clustering columns. -/
structure PmRow where
  iso3 : String
  location : String
  x : FloatRepr
  y : FloatRepr
  pm25 : FloatRepr
  log_pm25 : FloatRepr
  sat_2014 : FloatRepr
  log_sat : FloatRepr
  super_region_name : String
  cluster_region : Int
  cluster_log_region : Int
deriving DecidableEq, Repr

/-- One row of `countries = pm_gdf[['iso3','super_region_name','cluster_region']]`. -/
structure CountryRow where
  iso3 : String
  super_region_name : String
  cluster_region : Int
deriving DecidableEq, Repr

/-- The column projection `pm_gdf[['iso3','super_region_name','cluster_region']]`. -/
def projectCountryCols (r : PmRow) : CountryRow :=
  { iso3 := r.iso3, super_region_name := r.super_region_name,
    cluster_region := r.cluster_region }

/-- `drop_duplicates(subset=['iso3'])` with pandas' default `keep='first'`:
keep a row iff its `iso3` has not been seen in an earlier row. -/
def dropDuplicatesIso3 : List CountryRow → List String → List CountryRow
  | [], _ => []
  | r :: rs, seen =>
      if r.iso3 ∈ seen then dropDuplicatesIso3 rs seen
      else r :: dropDuplicatesIso3 rs (r.iso3 :: seen)

/-- `countries = pm_gdf[['iso3','super_region_name','cluster_region']].drop_duplicates(subset=['iso3'])`. -/
def countries (pm : List PmRow) : List CountryRow :=
  dropDuplicatesIso3 (pm.map projectCountryCols) []

/-- One row of the Natural Earth world map `world_map_gdf`: the `ISO_A3` key,
the country-boundary geometry, and the remaining attribute columns carried
verbatim. -/
structure WorldRow where
  ISO_A3 : String
  geometry : FloatRepr
  rest : List String
deriving DecidableEq, Repr

/-- One row of the merged table `world_map_plus_gdf`: the original world-map
row plus the three right-hand columns brought in by the merge, nullable
because a left join leaves them null on unmatched rows. -/
structure MergedRow where
  left : WorldRow
  iso3 : Option String
  super_region_name : Option String
  cluster_region : Option Int
deriving DecidableEq, Repr

/-- Key predicate of the merge: the right row's `iso3` equals the left row's
`ISO_A3`. -/
def matchesKey (k : String) (c : CountryRow) : Bool := c.iso3 == k

/-- Output rows a single left row contributes to the left merge: one row per
matching right row, or a single all-null-right row when nothing matches. -/
def mergeOne (R : List CountryRow) (w : WorldRow) : List MergedRow :=
  match R.filter (matchesKey w.ISO_A3) with
  | [] => [{ left := w, iso3 := none, super_region_name := none, cluster_region := none }]
  | m :: ms => (m :: ms).map (fun c =>
      { left := w, iso3 := some c.iso3, super_region_name := some c.super_region_name,
        cluster_region := some c.cluster_region })

/-- `world_map_gdf.merge(countries, left_on='ISO_A3', right_on='iso3', how='left')`:
left rows in order, each replaced by its match rows. -/
def leftMerge (L : List WorldRow) (R : List CountryRow) : List MergedRow :=
  L.flatMap (mergeOne R)

/-- Value-level effect of the two `fillna` statements on one merged row:
null `cluster_region` becomes `7`, null `super_region_name` becomes `"NA"`,
everything else is kept. -/
def backfillRow (m : MergedRow) : MergedRow :=
  { m with cluster_region := some (m.cluster_region.getD 7),
           super_region_name := some (m.super_region_name.getD "NA") }

/-- The null-category backfill applied to the whole merged table. -/
def backfill (rows : List MergedRow) : List MergedRow := rows.map backfillRow

/-- The table `world_map_plus_gdf` after the merge-and-backfill cell. -/
def world_map_plus_gdf (pm : List PmRow) (world_map : List WorldRow) : List MergedRow :=
  backfill (leftMerge world_map (countries pm))

/-- Single-match form of the left merge's per-row output when the right keys
are pairwise distinct: the unique match found by `find?`, or the all-null-right
row. -/
def mergeSingle (R : List CountryRow) (w : WorldRow) : MergedRow :=
  match R.find? (matchesKey w.ISO_A3) with
  | none => { left := w, iso3 := none, super_region_name := none, cluster_region := none }
  | some c =>
      { left := w, iso3 := some c.iso3, super_region_name := some c.super_region_name,
        cluster_region := some c.cluster_region }

/-- Modelled from the spec: the raw data file `data/air_spdf.geojson` is not
part of the sources, and the spec's glossary describes the super-region and
cluster-region columns as "two alternative categorical groupings of
countries", i.e. labels assigned per country.  This predicate states that
reading of the data: within `pm_gdf`, rows sharing an `iso3` share both
region labels. -/
def regionLabelsFunctionOfCountry (pm : List PmRow) : Prop :=
  ∀ r ∈ pm, ∀ r2 ∈ pm, r.iso3 = r2.iso3 →
    r.super_region_name = r2.super_region_name ∧ r.cluster_region = r2.cluster_region

/-- A pandas categorical series: the declared category list plus the nullable
cell values.  pandas requires every non-null value and every fill value to be
a declared category. -/
structure CatSeries (α : Type) where
  categories : List α
  values : List (Option α)
deriving Repr

/-- `astype('category')` applied to a plain series: the categories are the
distinct values and no cell is null. -/
def catAstype {α : Type} [DecidableEq α] (vals : List α) : CatSeries α :=
  { categories := vals.dedup, values := vals.map some }

/-- `Series.cat.add_categories`: appends the new categories, raising
`ValueError` when any of them is already a category. -/
def addCategories {α : Type} [DecidableEq α] (s : CatSeries α) (toAdd : List α) :
    Except String (CatSeries α) :=
  if toAdd.any (fun c => decide (c ∈ s.categories)) then
    Except.error "new categories must not include old categories"
  else Except.ok { s with categories := s.categories ++ toAdd }

/-- `fillna` on a categorical series: raises `TypeError` when the fill value
is not a declared category, otherwise replaces every null cell. -/
def fillnaCat {α : Type} [DecidableEq α] (s : CatSeries α) (v : α) :
    Except String (CatSeries α) :=
  if v ∈ s.categories then
    Except.ok { s with values := s.values.map (fun x => some (x.getD v)) }
  else Except.error "fill value must be one of the categories"

/-- The notebook's two-statement backfill of one merged categorical column:
the merged column keeps the categories of the `pm_gdf` column it came from
and holds the merge's nullable values; `add_categories` then `fillna`. -/
def backfillColumn {α : Type} [DecidableEq α] (pmVals : List α)
    (mergedVals : List (Option α)) (fill : α) : Except String (CatSeries α) :=
  let merged : CatSeries α := { categories := (catAstype pmVals).categories,
                                values := mergedVals }
  (addCategories merged [fill]).bind (fun s => fillnaCat s fill)

/-- `monitors_per_country = pm_gdf.groupby('iso3').size().sort_values(ascending=False)`:
group sizes indexed by the distinct `iso3` keys in groupby's sorted key
order, then sorted by descending count. -/
def monitors_per_country (pm : List PmRow) : List (String × Nat) :=
  let keys := ((pm.map (fun r => r.iso3)).dedup).mergeSort (fun a b => decide (a ≤ b))
  (keys.map (fun k => (k, (pm.filter (fun r => r.iso3 == k)).length))).mergeSort
    (fun a b => decide (b.2 ≤ a.2))

/-- A table cell at dtype granularity: int, float, string (object), geometry
or null. -/
inductive Cell where
  | intVal : Int → Cell
  | floatVal : FloatRepr → Cell
  | strVal : String → Cell
  | geomVal : FloatRepr → Cell
  | null : Cell
deriving DecidableEq, Repr

/-- A pandas dtype as far as the notebook observes it. -/
inductive Dtype where
  | intDt : Dtype
  | floatDt : Dtype
  | objectDt : Dtype
  | geometryDt : Dtype
  | categoryDt : List Cell → Dtype
deriving DecidableEq, Repr

/-- A named, dtyped column of cells. -/
structure Column where
  name : String
  dtype : Dtype
  cells : List Cell
deriving DecidableEq, Repr

/-- A data frame as a list of columns. -/
structure Frame where
  cols : List Column
deriving DecidableEq, Repr

/-- The dtype filter of `pm_gdf.select_dtypes(['int', 'object'])`. -/
def isIntOrObject : Dtype → Bool
  | Dtype.intDt => true
  | Dtype.objectDt => true
  | _ => false

/-- `astype('category')` on one column: the dtype becomes categorical with
the column's distinct non-null values as categories; the cells are kept. -/
def castToCategory (c : Column) : Column :=
  { c with dtype :=
      Dtype.categoryDt ((c.cells.filter (fun x => decide (x ≠ Cell.null))).dedup) }

/-- `pm_gdf.astype({col: 'category' for col in pm_gdf.select_dtypes(['int', 'object']).columns})`:
cast exactly the int- and object-typed columns to categorical. -/
def astypeIntObjectCategory (f : Frame) : Frame :=
  { cols := f.cols.map (fun c => if isIntOrObject c.dtype then castToCategory c else c) }

/-- Serialize a nullable string entry as a cell. -/
def optStrCell : Option String → Cell
  | some s => Cell.strVal s
  | none => Cell.null

/-- Serialize a nullable int entry as a cell. -/
def optIntCell : Option Int → Cell
  | some n => Cell.intVal n
  | none => Cell.null

/-- Data rendered by cell 9: the world map filled by super region with the
monitor locations colored by super region. -/
def cell9Data (pm : List PmRow) (world : List MergedRow) : List (List Cell) :=
  [world.map (fun w => optStrCell w.super_region_name),
   world.map (fun w => Cell.geomVal w.left.geometry),
   pm.map (fun r => Cell.floatVal r.x),
   pm.map (fun r => Cell.floatVal r.y),
   pm.map (fun r => Cell.strVal r.super_region_name)]

/-- Data consumed by cells 11 and 22: `pm_gdf[['log_pm25', 'log_sat']].describe()`. -/
def cell11Data (pm : List PmRow) : List (List Cell) :=
  [pm.map (fun r => Cell.floatVal r.log_pm25),
   pm.map (fun r => Cell.floatVal r.log_sat)]

/-- Data rendered by cell 12: the world map with monitor locations colored by
`log_pm25`. -/
def cell12Data (pm : List PmRow) (world : List MergedRow) : List (List Cell) :=
  [world.map (fun w => optStrCell w.super_region_name),
   world.map (fun w => Cell.geomVal w.left.geometry),
   pm.map (fun r => Cell.floatVal r.x),
   pm.map (fun r => Cell.floatVal r.y),
   pm.map (fun r => Cell.floatVal r.log_pm25)]

/-- Data consumed by cell 15's bar chart of monitors per super region. -/
def cell15Data (pm : List PmRow) : List (List Cell) :=
  [pm.map (fun r => Cell.strVal r.super_region_name)]

/-- Output of cell 17: `monitors_per_country.head(5)`. -/
def cell17Data (pm : List PmRow) : List (List Cell) :=
  [((monitors_per_country pm).take 5).map (fun p => Cell.strVal p.1),
   ((monitors_per_country pm).take 5).map (fun p => Cell.intVal (Int.ofNat p.2))]

/-- Data consumed by cell 18: `pm_gdf[['iso3']].value_counts().describe()`,
the per-country count series sorted by descending count. -/
def cell18Data (pm : List PmRow) : List (List Cell) :=
  [(monitors_per_country pm).map (fun p => Cell.intVal (Int.ofNat p.2))]

/-- Data consumed by cell 20's bar chart of monitors per country. -/
def cell20Data (pm : List PmRow) : List (List Cell) :=
  [pm.map (fun r => Cell.strVal r.iso3),
   pm.map (fun r => Cell.strVal r.super_region_name)]

/-- Data consumed by the regression scatter cells 24, 25, 26 and 33:
`log_sat` vs `log_pm25`, grouped by super region. -/
def cell24Data (pm : List PmRow) : List (List Cell) :=
  [pm.map (fun r => Cell.floatVal r.log_sat),
   pm.map (fun r => Cell.floatVal r.log_pm25),
   pm.map (fun r => Cell.strVal r.super_region_name)]

/-- Data consumed by cell 28: `pm_gdf.groupby('cluster_region')[['log_pm25']].describe()`,
the per-cluster groups of `log_pm25` values in sorted key order. -/
def cell28Data (pm : List PmRow) : List (List Cell) :=
  ((pm.map (fun r => r.cluster_region)).dedup.mergeSort (fun a b => decide (a ≤ b))).map
    (fun k => (pm.filter (fun r => r.cluster_region == k)).map
      (fun r => Cell.floatVal r.log_pm25))

/-- Data consumed by cell 30's bar chart of monitors per cluster region. -/
def cell30Data (pm : List PmRow) : List (List Cell) :=
  [pm.map (fun r => Cell.intVal r.cluster_region)]

/-- Data rendered by cell 31: the world map filled by cluster region with the
monitor locations colored by cluster region. -/
def cell31Data (pm : List PmRow) (world : List MergedRow) : List (List Cell) :=
  [world.map (fun w => optIntCell w.cluster_region),
   world.map (fun w => Cell.geomVal w.left.geometry),
   pm.map (fun r => Cell.floatVal r.x),
   pm.map (fun r => Cell.floatVal r.y),
   pm.map (fun r => Cell.intVal r.cluster_region)]

/-- Data consumed by cell 32: `log_sat` vs `log_pm25`, grouped by cluster
region. -/
def cell32Data (pm : List PmRow) : List (List Cell) :=
  [pm.map (fun r => Cell.floatVal r.log_sat),
   pm.map (fun r => Cell.floatVal r.log_pm25),
   pm.map (fun r => Cell.intVal r.cluster_region)]

/-- The interpreter state after the join-and-backfill cell: the two tables
every later cell reads, plus the one local variable a later cell assigns. -/
structure NotebookState where
  pm_gdf : List PmRow
  world_map_plus_gdf : List MergedRow
  monitors_per_country : List (String × Nat)
deriving Repr

/-- The cells executed after the join-and-backfill cell, by notebook cell
number. -/
inductive PostCell where
  | cell9 : PostCell
  | cell11 : PostCell
  | cell12 : PostCell
  | cell15 : PostCell
  | cell17 : PostCell
  | cell18 : PostCell
  | cell20 : PostCell
  | cell22 : PostCell
  | cell24 : PostCell
  | cell25 : PostCell
  | cell26 : PostCell
  | cell28 : PostCell
  | cell30 : PostCell
  | cell31 : PostCell
  | cell32 : PostCell
  | cell33 : PostCell
deriving DecidableEq, Repr

/-- Execute one post-join cell: the resulting state and the data the cell
displays.  Only cell 17 assigns a (fresh) variable; no cell writes to
`pm_gdf` or `world_map_plus_gdf`. -/
def runCell : PostCell → NotebookState → NotebookState × List (List Cell)
  | PostCell.cell9, s => (s, cell9Data s.pm_gdf s.world_map_plus_gdf)
  | PostCell.cell11, s => (s, cell11Data s.pm_gdf)
  | PostCell.cell12, s => (s, cell12Data s.pm_gdf s.world_map_plus_gdf)
  | PostCell.cell15, s => (s, cell15Data s.pm_gdf)
  | PostCell.cell17, s =>
      ({ s with monitors_per_country := monitors_per_country s.pm_gdf },
       cell17Data s.pm_gdf)
  | PostCell.cell18, s => (s, cell18Data s.pm_gdf)
  | PostCell.cell20, s => (s, cell20Data s.pm_gdf)
  | PostCell.cell22, s => (s, cell11Data s.pm_gdf)
  | PostCell.cell24, s => (s, cell24Data s.pm_gdf)
  | PostCell.cell25, s => (s, cell24Data s.pm_gdf)
  | PostCell.cell26, s => (s, cell24Data s.pm_gdf)
  | PostCell.cell28, s => (s, cell28Data s.pm_gdf)
  | PostCell.cell30, s => (s, cell30Data s.pm_gdf)
  | PostCell.cell31, s => (s, cell31Data s.pm_gdf s.world_map_plus_gdf)
  | PostCell.cell32, s => (s, cell32Data s.pm_gdf)
  | PostCell.cell33, s => (s, cell24Data s.pm_gdf)

/-- The notebook's only inputs: the parsed contents of
`data/air_spdf.geojson` and of the Natural Earth shapefile. -/
structure Inputs where
  air_rows : List PmRow
  world_rows : List WorldRow
deriving DecidableEq, Repr

/-- The tables the loading-and-join cells construct.  The load-time
categorical cast changes only dtype metadata, never cell values (see
`astype_category_frame_condition`), so `pm_gdf` carries the file's rows. -/
structure Tables where
  pm_gdf : List PmRow
  countries_tbl : List CountryRow
  world_map_plus : List MergedRow
deriving DecidableEq, Repr

/-- The data-construction phase of the notebook, top to bottom: load,
project-and-deduplicate, left-merge, backfill. -/
def pipeline (inp : Inputs) : Tables :=
  { pm_gdf := inp.air_rows,
    countries_tbl := countries inp.air_rows,
    world_map_plus := world_map_plus_gdf inp.air_rows inp.world_rows }

/-- The post-join cells in notebook order. -/
def allPostCells : List PostCell :=
  [PostCell.cell9, PostCell.cell11, PostCell.cell12, PostCell.cell15,
   PostCell.cell17, PostCell.cell18, PostCell.cell20, PostCell.cell22,
   PostCell.cell24, PostCell.cell25, PostCell.cell26, PostCell.cell28,
   PostCell.cell30, PostCell.cell31, PostCell.cell32, PostCell.cell33]

/-- Interpreter state at the start of the plotting phase. -/
def initState (t : Tables) : NotebookState :=
  { pm_gdf := t.pm_gdf, world_map_plus_gdf := t.world_map_plus,
    monitors_per_country := [] }

/-- Run a list of cells in order, threading the state and collecting every
cell's displayed output. -/
def runCells : List PostCell → NotebookState → NotebookState × List (List (List Cell))
  | [], s => (s, [])
  | c :: cs, s =>
      let p := runCell c s
      let q := runCells cs p.1
      (q.1, p.2 :: q.2)

/-- One top-to-bottom execution of the notebook: the constructed tables and
the outputs of every post-join cell.  The embedding is a pure function of the
two input files: the notebook reads no other state and calls no source of
randomness. -/
def runNotebook (inp : Inputs) : Tables × List (List (List Cell)) :=
  (pipeline inp, (runCells allPostCells (initState (pipeline inp))).2)

/-- Example monitor row used in concrete instantiations. -/
def pmEx : PmRow :=
  { iso3 := "USA", location := "Denver", x := 0, y := 1, pm25 := 2, log_pm25 := 3,
    sat_2014 := 4, log_sat := 5, super_region_name := "HighIncome",
    cluster_region := 2, cluster_log_region := 3 }

/-- A second monitor in the same country, with identical region labels. -/
def pmEx2 : PmRow :=
  { pmEx with location := "Boulder", x := 6, log_pm25 := 7 }

/-- A monitor in a different country. -/
def pmEx3 : PmRow :=
  { iso3 := "MEX", location := "Mexico City", x := 8, y := 9, pm25 := 10,
    log_pm25 := 11, sat_2014 := 12, log_sat := 13,
    super_region_name := "LatinAmerica", cluster_region := 3, cluster_log_region := 4 }

/-- Example world-map row whose `ISO_A3` occurs in the monitor data. -/
def worldEx : WorldRow := { ISO_A3 := "USA", geometry := 100, rest := ["United States"] }

/-- Example world-map row whose `ISO_A3` occurs in no monitor row. -/
def worldEx2 : WorldRow := { ISO_A3 := "FRA", geometry := 101, rest := ["France"] }

/-- Example merged row with non-null region entries. -/
def mergedEx : MergedRow :=
  { left := worldEx, iso3 := some "USA", super_region_name := some "HighIncome",
    cluster_region := some 2 }

/-- Example post-join interpreter state. -/
def stateEx : NotebookState :=
  { pm_gdf := [pmEx], world_map_plus_gdf := world_map_plus_gdf [pmEx] [worldEx],
    monitors_per_country := [] }

/-- The same state with a different value of the one assignable local
variable, to exercise independence of cell outputs from it. -/
def stateEx2 : NotebookState :=
  { stateEx with monitors_per_country := [("XYZ", 42)] }

/-- Example notebook input. -/
def inpEx : Inputs := { air_rows := [pmEx], world_rows := [worldEx, worldEx2] }

/-- Example frame with one object, one int, one float and one geometry
column. -/
def frameEx : Frame :=
  { cols := [
      { name := "iso3", dtype := Dtype.objectDt, cells := [Cell.strVal "USA"] },
      { name := "cluster_region", dtype := Dtype.intDt, cells := [Cell.intVal 2] },
      { name := "log_pm25", dtype := Dtype.floatDt, cells := [Cell.floatVal 3] },
      { name := "geometry", dtype := Dtype.geometryDt, cells := [Cell.geomVal 4] }] }

/-- Every row kept by `dropDuplicatesIso3` comes from the input list and its
key was not among the already-seen keys. -/
theorem dropDuplicatesIso3_mem (rs : List CountryRow) (seen : List String)
    (c : CountryRow) (hc : c ∈ dropDuplicatesIso3 rs seen) :
    c ∈ rs ∧ c.iso3 ∉ seen := by
  induction rs generalizing seen with
  | nil => simp [dropDuplicatesIso3] at hc
  | cons r rs ih =>
      by_cases h : r.iso3 ∈ seen
      · simp only [dropDuplicatesIso3, if_pos h] at hc
        obtain ⟨h1, h2⟩ := ih seen hc
        exact ⟨List.mem_cons_of_mem _ h1, h2⟩
      · simp only [dropDuplicatesIso3, if_neg h, List.mem_cons] at hc
        rcases hc with hc | hc
        · exact ⟨hc ▸ List.mem_cons_self _ _, hc ▸ h⟩
        · obtain ⟨h1, h2⟩ := ih _ hc
          refine ⟨List.mem_cons_of_mem _ h1, fun hmem => h2 ?_⟩
          exact List.mem_cons_of_mem _ hmem

/-- The keys of the output of `dropDuplicatesIso3` are pairwise distinct. -/
theorem dropDuplicatesIso3_keys_nodup (rs : List CountryRow) (seen : List String) :
    ((dropDuplicatesIso3 rs seen).map (fun c => c.iso3)).Nodup := by
  induction rs generalizing seen with
  | nil => simp [dropDuplicatesIso3]
  | cons r rs ih =>
      by_cases h : r.iso3 ∈ seen
      · simpa [dropDuplicatesIso3, if_pos h] using ih seen
      · simp only [dropDuplicatesIso3, if_neg h, List.map_cons, List.nodup_cons]
        refine ⟨fun hmem => ?_, ih _⟩
        obtain ⟨c, hc, hkey⟩ := List.mem_map.mp hmem
        obtain ⟨_, hns⟩ := dropDuplicatesIso3_mem rs _ c hc
        exact hns (hkey ▸ List.mem_cons_self _ _)

/-- `countries` has pairwise-distinct `iso3` keys: `drop_duplicates` leaves at
most one row per country. -/
theorem countries_keys_nodup (pm : List PmRow) :
    ((countries pm).map (fun c => c.iso3)).Nodup :=
  dropDuplicatesIso3_keys_nodup _ []

/-- With pairwise-distinct keys, filtering by one key returns the `find?`
result as a list. -/
theorem filter_key_eq_find (R : List CountryRow) (k : String)
    (h : (R.map (fun c => c.iso3)).Nodup) :
    R.filter (matchesKey k) = (R.find? (matchesKey k)).toList := by
  induction R with
  | nil => rfl
  | cons c R ih =>
      simp only [List.map_cons, List.nodup_cons] at h
      obtain ⟨hk, hnd⟩ := h
      by_cases hm : matchesKey k c
      · have hkc : c.iso3 = k := by
          simpa [matchesKey] using hm
        have hnone : R.filter (matchesKey k) = [] := by
          apply List.filter_eq_nil_iff.mpr
          intro a ha hma
          have hac : a.iso3 = k := by simpa [matchesKey] using hma
          exact hk (List.mem_map.mpr ⟨a, ha, hac.trans hkc.symm⟩)
        simp [List.filter_cons, List.find?, hm, hnone]
      · simp only [List.filter_cons, List.find?]
        rw [Bool.of_not_eq_true hm]
        simpa using ih hnd

/-- With pairwise-distinct right keys each left row contributes exactly the
single `mergeSingle` row. -/
theorem mergeOne_eq_single (R : List CountryRow) (w : WorldRow)
    (h : (R.map (fun c => c.iso3)).Nodup) :
    mergeOne R w = [mergeSingle R w] := by
  unfold mergeOne mergeSingle
  rw [filter_key_eq_find R _ h]
  cases R.find? (matchesKey w.ISO_A3) with
  | none => rfl
  | some c => rfl

/-- With pairwise-distinct right keys the left merge is a per-row map. -/
theorem leftMerge_eq_map (L : List WorldRow) (R : List CountryRow)
    (h : (R.map (fun c => c.iso3)).Nodup) :
    leftMerge L R = L.map (mergeSingle R) := by
  induction L with
  | nil => rfl
  | cons w L ih =>
      simp only [leftMerge, List.flatMap_cons, List.map_cons] at ih ⊢
      rw [mergeOne_eq_single R w h, ih]
      rfl

/-- The world-map row of a `mergeSingle` output is the input row. -/
theorem mergeSingle_left (R : List CountryRow) (w : WorldRow) :
    (mergeSingle R w).left = w := by
  unfold mergeSingle
  cases R.find? (matchesKey w.ISO_A3) with
  | none => rfl
  | some c => rfl

/-- Members of a list with `Nodup` keys that share a key are equal. -/
theorem eq_of_mem_of_key_eq {R : List CountryRow}
    (h : (R.map (fun c => c.iso3)).Nodup) {a b : CountryRow}
    (ha : a ∈ R) (hb : b ∈ R) (hk : a.iso3 = b.iso3) : a = b :=
  List.inj_on_of_nodup_map h ha hb hk

/-- C3: because `countries` is produced by `drop_duplicates` on `iso3` and so
has pairwise-distinct `iso3` keys, the left merge on `ISO_A3 = iso3`
multiplies no rows: the merged table has exactly the rows of `world_map_gdf`,
in the same order, as witnessed by projecting the left component. -/
theorem merge_multiplies_no_rows (pm : List PmRow) (L : List WorldRow) :
    ((countries pm).map (fun c => c.iso3)).Nodup ∧
    (leftMerge L (countries pm)).map (fun m => m.left) = L ∧
    (leftMerge L (countries pm)).length = L.length := by
  have hnd := countries_keys_nodup pm
  have hmap : (leftMerge L (countries pm)).map (fun m => m.left) = L := by
    rw [leftMerge_eq_map L _ hnd, List.map_map]
    have : ((fun m => MergedRow.left m) ∘ mergeSingle (countries pm)) = id := by
      funext w
      exact mergeSingle_left _ w
    rw [this, List.map_id]
  refine ⟨hnd, hmap, ?_⟩
  have := congrArg List.length hmap
  simpa using this

/-- C1: each row of `world_map_gdf` yields exactly one merged row at the same
position, whose world-map columns are unchanged; its region columns equal
those of any (hence the unique) `countries` row with matching `iso3`, and are
null when no `countries` row matches. -/
theorem merged_row_matches_unique_country (pm : List PmRow) (L : List WorldRow)
    (i : Nat) (hi : i < L.length) :
    ∃ hm : i < (leftMerge L (countries pm)).length,
      ((leftMerge L (countries pm)).get ⟨i, hm⟩).left = L.get ⟨i, hi⟩ ∧
      (∀ c ∈ countries pm, c.iso3 = (L.get ⟨i, hi⟩).ISO_A3 →
        ((leftMerge L (countries pm)).get ⟨i, hm⟩).iso3 = some c.iso3 ∧
        ((leftMerge L (countries pm)).get ⟨i, hm⟩).super_region_name = some c.super_region_name ∧
        ((leftMerge L (countries pm)).get ⟨i, hm⟩).cluster_region = some c.cluster_region) ∧
      ((∀ c ∈ countries pm, c.iso3 ≠ (L.get ⟨i, hi⟩).ISO_A3) →
        ((leftMerge L (countries pm)).get ⟨i, hm⟩).iso3 = none ∧
        ((leftMerge L (countries pm)).get ⟨i, hm⟩).super_region_name = none ∧
        ((leftMerge L (countries pm)).get ⟨i, hm⟩).cluster_region = none) := by
  have hnd := countries_keys_nodup pm
  have hrw := leftMerge_eq_map L (countries pm) hnd
  have hm : i < (leftMerge L (countries pm)).length := by
    rw [hrw, List.length_map]
    exact hi
  refine ⟨hm, ?_⟩
  have hget : (leftMerge L (countries pm)).get ⟨i, hm⟩
      = mergeSingle (countries pm) (L.get ⟨i, hi⟩) := by
    simp only [List.get_eq_getElem, hrw, List.getElem_map]
  rw [hget]
  refine ⟨mergeSingle_left _ _, ?_, ?_⟩
  · intro c hc hkey
    unfold mergeSingle
    cases hfind : (countries pm).find? (matchesKey (L.get ⟨i, hi⟩).ISO_A3) with
    | none =>
        exfalso
        have := List.find?_eq_none.mp hfind c hc
        exact this (by simpa [matchesKey] using hkey)
    | some c0 =>
        have hc0mem : c0 ∈ countries pm := List.mem_of_find?_eq_some hfind
        have hc0key : c0.iso3 = (L.get ⟨i, hi⟩).ISO_A3 := by
          have := List.find?_some hfind
          simpa [matchesKey] using this
        have : c = c0 := eq_of_mem_of_key_eq hnd hc hc0mem (hkey.trans hc0key.symm)
        subst this
        exact ⟨rfl, rfl, rfl⟩
  · intro hno
    unfold mergeSingle
    cases hfind : (countries pm).find? (matchesKey (L.get ⟨i, hi⟩).ISO_A3) with
    | none => exact ⟨rfl, rfl, rfl⟩
    | some c0 =>
        exfalso
        have hc0mem : c0 ∈ countries pm := List.mem_of_find?_eq_some hfind
        have hc0key : c0.iso3 = (L.get ⟨i, hi⟩).ISO_A3 := by
          have := List.find?_some hfind
          simpa [matchesKey] using this
        exact hno c0 hc0mem hc0key

/-- C2: after the backfill, the `cluster_region` and `super_region_name`
columns of `world_map_plus_gdf` contain no nulls, and every row whose
`ISO_A3` matched no `iso3` of `countries` holds `cluster_region = 7` and
`super_region_name = "NA"`. -/
theorem backfill_fills_all_nulls (pm : List PmRow) (L : List WorldRow) :
    (∀ m ∈ world_map_plus_gdf pm L,
      m.cluster_region.isSome = true ∧ m.super_region_name.isSome = true) ∧
    (∀ i, ∀ hi : i < L.length,
      (∀ c ∈ countries pm, c.iso3 ≠ (L.get ⟨i, hi⟩).ISO_A3) →
      ∃ hm : i < (world_map_plus_gdf pm L).length,
        ((world_map_plus_gdf pm L).get ⟨i, hm⟩).cluster_region = some 7 ∧
        ((world_map_plus_gdf pm L).get ⟨i, hm⟩).super_region_name = some "NA") := by
  constructor
  · intro m hmem
    unfold world_map_plus_gdf backfill at hmem
    obtain ⟨m0, _, hEq⟩ := List.mem_map.mp hmem
    subst hEq
    exact ⟨rfl, rfl⟩
  · intro i hi hno
    have hnd := countries_keys_nodup pm
    have hrw : world_map_plus_gdf pm L
        = L.map (fun w => backfillRow (mergeSingle (countries pm) w)) := by
      unfold world_map_plus_gdf backfill
      rw [leftMerge_eq_map L _ hnd, List.map_map]
      rfl
    have hm : i < (world_map_plus_gdf pm L).length := by
      rw [hrw, List.length_map]
      exact hi
    refine ⟨hm, ?_⟩
    have hget : (world_map_plus_gdf pm L).get ⟨i, hm⟩
        = backfillRow (mergeSingle (countries pm) (L.get ⟨i, hi⟩)) := by
      simp only [List.get_eq_getElem, hrw, List.getElem_map]
    rw [hget]
    unfold mergeSingle
    cases hfind : (countries pm).find? (matchesKey (L.get ⟨i, hi⟩).ISO_A3) with
    | none => exact ⟨rfl, rfl⟩
    | some c0 =>
        exfalso
        have hc0mem : c0 ∈ countries pm := List.mem_of_find?_eq_some hfind
        have hc0key : c0.iso3 = (L.get ⟨i, hi⟩).ISO_A3 := by
          have := List.find?_some hfind
          simpa [matchesKey] using this
        exact hno c0 hc0mem hc0key

/-- C4: the value-level backfill modifies only the `cluster_region` and
`super_region_name` columns, and within those only the entries that were null
after the merge: row count and order are preserved, every world-map column
and the merged `iso3` column are unchanged, and every non-null entry of the
two region columns is unchanged. -/
theorem backfill_frame_condition (M : List MergedRow) :
    (backfill M).length = M.length ∧
    ∀ i, ∀ hi : i < M.length,
      ∃ hb : i < (backfill M).length,
        ((backfill M).get ⟨i, hb⟩).left = (M.get ⟨i, hi⟩).left ∧
        ((backfill M).get ⟨i, hb⟩).iso3 = (M.get ⟨i, hi⟩).iso3 ∧
        (∀ v : Int, (M.get ⟨i, hi⟩).cluster_region = some v →
          ((backfill M).get ⟨i, hb⟩).cluster_region = some v) ∧
        (∀ s : String, (M.get ⟨i, hi⟩).super_region_name = some s →
          ((backfill M).get ⟨i, hb⟩).super_region_name = some s) := by
  refine ⟨by simp [backfill], ?_⟩
  intro i hi
  have hb : i < (backfill M).length := by
    simpa [backfill] using hi
  refine ⟨hb, ?_⟩
  have hget : (backfill M).get ⟨i, hb⟩ = backfillRow (M.get ⟨i, hi⟩) := by
    simp only [backfill, List.get_eq_getElem, List.getElem_map]
  rw [hget]
  refine ⟨rfl, rfl, ?_, ?_⟩
  · intro v hv
    rw [List.get_eq_getElem] at hv
    simp [backfillRow, hv]
  · intro s hs
    rw [List.get_eq_getElem] at hs
    simp [backfillRow, hs]

/-- Every key present in the input and not yet seen has a representative in
the output of `dropDuplicatesIso3`. -/
theorem dropDuplicatesIso3_covers (rs : List CountryRow) (seen : List String)
    (r : CountryRow) (hr : r ∈ rs) (hs : r.iso3 ∉ seen) :
    ∃ c ∈ dropDuplicatesIso3 rs seen, c.iso3 = r.iso3 := by
  induction rs generalizing seen with
  | nil => cases hr
  | cons a rs ih =>
      rw [List.mem_cons] at hr
      by_cases h : a.iso3 ∈ seen
      · simp only [dropDuplicatesIso3, if_pos h]
        rcases hr with hr | hr
        · exact absurd (hr ▸ h) hs
        · exact ih seen hr hs
      · simp only [dropDuplicatesIso3, if_neg h]
        rcases hr with hr | hr
        · exact ⟨a, List.mem_cons_self _ _, by rw [hr]⟩
        · by_cases hk : r.iso3 = a.iso3
          · exact ⟨a, List.mem_cons_self _ _, hk.symm⟩
          · obtain ⟨c, hc, hck⟩ := ih (a.iso3 :: seen) hr (by
              intro hmem
              rcases List.mem_cons.mp hmem with hmem | hmem
              · exact hk hmem
              · exact hs hmem)
            exact ⟨c, List.mem_cons_of_mem _ hc, hck⟩

/-- C7: when the region labels are a function of the country (as the data is
described by the spec), `drop_duplicates(subset=['iso3'])` loses no distinct
(super-region, cluster-region) assignment: every `pm_gdf` row's assignment
survives in `countries`. -/
theorem countries_keeps_every_assignment (pm : List PmRow)
    (h : regionLabelsFunctionOfCountry pm) :
    ∀ r ∈ pm, ∃ c ∈ countries pm, c.iso3 = r.iso3 ∧
      c.super_region_name = r.super_region_name ∧
      c.cluster_region = r.cluster_region := by
  intro r hr
  have hproj : projectCountryCols r ∈ pm.map projectCountryCols :=
    List.mem_map.mpr ⟨r, hr, rfl⟩
  obtain ⟨c, hc, hck⟩ :=
    dropDuplicatesIso3_covers (pm.map projectCountryCols) [] (projectCountryCols r)
      hproj (by simp)
  obtain ⟨r2, hr2, hEq⟩ := List.mem_map.mp ((dropDuplicatesIso3_mem _ _ c hc).1)
  have hkey : r2.iso3 = r.iso3 := by
    have : c.iso3 = r.iso3 := hck
    rw [← hEq] at this
    exact this
  obtain ⟨hsuper, hclus⟩ := h r2 hr2 r hr hkey
  refine ⟨c, hc, hck, ?_, ?_⟩
  · rw [← hEq]
    exact hsuper
  · rw [← hEq]
    exact hclus

/-- When the fill value is not among the column's values, `add_categories`
followed by `fillna` succeeds. -/
theorem backfillColumn_ok {α : Type} [DecidableEq α] (pmVals : List α)
    (mergedVals : List (Option α)) (fill : α) (h : fill ∉ pmVals) :
    ∃ s, backfillColumn pmVals mergedVals fill = Except.ok s := by
  refine ⟨{ categories := pmVals.dedup ++ [fill],
            values := mergedVals.map (fun x => some (x.getD fill)) }, ?_⟩
  unfold backfillColumn addCategories fillnaCat catAstype
  simp only [List.any_cons, List.any_nil, Bool.or_false, List.mem_dedup, h,
    decide_False, Bool.false_eq_true, if_false, Except.bind, List.mem_append,
    List.mem_singleton, or_true, if_true]

/-- C8: with the region columns cast to categorical at load time, no
`cluster_region` value equal to `7` and no `super_region_name` value equal to
`"NA"`, the four backfill statements all succeed: each fill value is a
freshly added category of its column. -/
theorem categorical_backfill_succeeds (pm : List PmRow) (L : List WorldRow)
    (h7 : ∀ r ∈ pm, r.cluster_region ≠ 7)
    (hNA : ∀ r ∈ pm, r.super_region_name ≠ "NA") :
    (∃ s, backfillColumn (pm.map (fun r => r.cluster_region))
        ((leftMerge L (countries pm)).map (fun m => m.cluster_region)) 7
      = Except.ok s) ∧
    (∃ s, backfillColumn (pm.map (fun r => r.super_region_name))
        ((leftMerge L (countries pm)).map (fun m => m.super_region_name)) "NA"
      = Except.ok s) := by
  constructor
  · apply backfillColumn_ok
    intro hmem
    obtain ⟨r, hr, hEq⟩ := List.mem_map.mp hmem
    exact h7 r hr hEq
  · apply backfillColumn_ok
    intro hmem
    obtain ⟨r, hr, hEq⟩ := List.mem_map.mp hmem
    exact hNA r hr hEq

/-- Elements taken before position `n` are pairwise related to elements
dropped at position `n` in a pairwise-related list. -/
theorem pairwise_take_drop {α : Type} {r : α → α → Prop} {l : List α}
    (h : List.Pairwise r l) (n : Nat) :
    ∀ a ∈ l.take n, ∀ b ∈ l.drop n, r a b := by
  induction l generalizing n with
  | nil => intro a ha; simp at ha
  | cons x t ih =>
      cases n with
      | zero => intro a ha; simp at ha
      | succ n =>
          rw [List.pairwise_cons] at h
          intro a ha b hb
          rw [List.take_succ_cons, List.mem_cons] at ha
          rw [List.drop_succ_cons] at hb
          rcases ha with ha | ha
          · exact ha ▸ h.1 b (List.drop_subset n t hb)
          · exact ih h.2 n a ha b hb

/-- C9: `monitors_per_country` is sorted in non-increasing order of count, so
its first five entries have counts at least as large as every remaining
entry: `head(5)` is the five countries with the most ground monitors, up to
ties. -/
theorem monitors_per_country_sorted (pm : List PmRow) :
    List.Sorted (fun a b : String × Nat => b.2 ≤ a.2) (monitors_per_country pm) ∧
    ∀ a ∈ (monitors_per_country pm).take 5, ∀ b ∈ (monitors_per_country pm).drop 5,
      b.2 ≤ a.2 := by
  have hsort : List.Sorted (fun a b : String × Nat => b.2 ≤ a.2)
      (monitors_per_country pm) := by
    have h := @List.sorted_mergeSort (String × Nat)
      (fun a b : String × Nat => decide (b.2 ≤ a.2))
      (fun a b c h1 h2 => by
        simp only [decide_eq_true_eq] at h1 h2 ⊢
        exact le_trans h2 h1)
      (fun a b => by
        simp only [Bool.or_eq_true, decide_eq_true_eq]
        exact Nat.le_total b.2 a.2)
      (((((pm.map (fun r => r.iso3)).dedup).mergeSort (fun a b => decide (a ≤ b))).map
        (fun k => (k, (pm.filter (fun r => r.iso3 == k)).length))))
    unfold monitors_per_country
    exact h.imp (fun hd => of_decide_eq_true hd)
  exact ⟨hsort, pairwise_take_drop hsort 5⟩

/-- C10: the load-time cast changes only the dtypes of the int- and
object-typed columns to categorical; it preserves the number and order of
columns, every column's name and every cell's value, and leaves columns of
any other dtype (floats such as `log_pm25` and `log_sat`, and the geometry
column) entirely unchanged. -/
theorem astype_category_frame_condition (f : Frame) :
    (astypeIntObjectCategory f).cols.length = f.cols.length ∧
    ∀ i, ∀ hi : i < f.cols.length,
      ∃ hj : i < (astypeIntObjectCategory f).cols.length,
        ((astypeIntObjectCategory f).cols.get ⟨i, hj⟩).name = (f.cols.get ⟨i, hi⟩).name ∧
        ((astypeIntObjectCategory f).cols.get ⟨i, hj⟩).cells = (f.cols.get ⟨i, hi⟩).cells ∧
        (isIntOrObject (f.cols.get ⟨i, hi⟩).dtype = false →
          (astypeIntObjectCategory f).cols.get ⟨i, hj⟩ = f.cols.get ⟨i, hi⟩) ∧
        (isIntOrObject (f.cols.get ⟨i, hi⟩).dtype = true →
          ∃ cats, ((astypeIntObjectCategory f).cols.get ⟨i, hj⟩).dtype
            = Dtype.categoryDt cats) := by
  refine ⟨by simp [astypeIntObjectCategory], ?_⟩
  intro i hi
  have hj : i < (astypeIntObjectCategory f).cols.length := by
    simpa [astypeIntObjectCategory] using hi
  refine ⟨hj, ?_⟩
  have hget : (astypeIntObjectCategory f).cols.get ⟨i, hj⟩
      = (if isIntOrObject (f.cols.get ⟨i, hi⟩).dtype then castToCategory (f.cols.get ⟨i, hi⟩)
         else f.cols.get ⟨i, hi⟩) := by
    simp only [astypeIntObjectCategory, List.get_eq_getElem, List.getElem_map]
  rw [hget]
  by_cases hio : isIntOrObject (f.cols.get ⟨i, hi⟩).dtype
  · rw [if_pos hio]
    refine ⟨rfl, rfl, ?_, ?_⟩
    · intro hfalse
      rw [hio] at hfalse
      cases hfalse
    · intro _
      exact ⟨_, rfl⟩
  · rw [if_neg hio]
    refine ⟨rfl, rfl, fun _ => rfl, ?_⟩
    intro htrue
    exact absurd htrue hio

/-- C5: every cell executed after the join-and-backfill cell leaves `pm_gdf`
and `world_map_plus_gdf` unchanged, and its displayed output depends only on
those two tables: two states agreeing on them produce the same output. -/
theorem post_join_cells_read_only (c : PostCell) (s s2 : NotebookState) :
    ((runCell c s).1.pm_gdf = s.pm_gdf ∧
     (runCell c s).1.world_map_plus_gdf = s.world_map_plus_gdf) ∧
    (s.pm_gdf = s2.pm_gdf → s.world_map_plus_gdf = s2.world_map_plus_gdf →
      (runCell c s).2 = (runCell c s2).2) := by
  cases c <;>
    exact ⟨⟨rfl, rfl⟩, fun h1 h2 => by simp only [runCell, h1, h2]⟩

/-- C6: the pipeline is deterministic: two top-to-bottom executions on the
same contents of the two input files produce identical `pm_gdf`,
`countries` and `world_map_plus_gdf` tables and identical outputs for every
derived table and plot. -/
theorem notebook_deterministic (a b : Inputs) (h : a = b) :
    runNotebook a = runNotebook b := by
  rw [h]

/-- Witness for the C1 theorem at a one-row world map matching the one
monitor country. -/
theorem merged_row_matches_unique_country_witness :
    0 < ([worldEx] : List WorldRow).length ∧
    ((leftMerge [worldEx] (countries [pmEx])).get ⟨0, by decide⟩).left
      = ([worldEx] : List WorldRow).get ⟨0, by decide⟩ ∧
    ((leftMerge [worldEx] (countries [pmEx])).get ⟨0, by decide⟩).super_region_name
      = some "HighIncome" := by
  obtain ⟨hm, h1, h2, _⟩ := merged_row_matches_unique_country [pmEx] [worldEx] 0 (by decide)
  have hc := h2 { iso3 := "USA", super_region_name := "HighIncome", cluster_region := 2 }
    (by decide) (by decide)
  exact ⟨by decide, h1, hc.2.1⟩

/-- Witness for the C2 theorem at a world-map row matching no monitor
country. -/
theorem backfill_fills_all_nulls_witness :
    (∀ c ∈ countries [pmEx], c.iso3 ≠ (([worldEx2] : List WorldRow).get ⟨0, by decide⟩).ISO_A3) ∧
    ((world_map_plus_gdf [pmEx] [worldEx2]).get ⟨0, by decide⟩).cluster_region = some 7 ∧
    ((world_map_plus_gdf [pmEx] [worldEx2]).get ⟨0, by decide⟩).super_region_name = some "NA" := by
  obtain ⟨hm, h1, h2⟩ := (backfill_fills_all_nulls [pmEx] [worldEx2]).2 0 (by decide) (by decide)
  exact ⟨by decide, h1, h2⟩

/-- Witness for the C4 theorem at a one-row merged table with non-null
region entries. -/
theorem backfill_frame_condition_witness :
    0 < ([mergedEx] : List MergedRow).length ∧
    (backfill [mergedEx]).length = ([mergedEx] : List MergedRow).length ∧
    ((backfill [mergedEx]).get ⟨0, by decide⟩).left
      = (([mergedEx] : List MergedRow).get ⟨0, by decide⟩).left ∧
    ((backfill [mergedEx]).get ⟨0, by decide⟩).cluster_region = some 2 := by
  obtain ⟨hlen, h⟩ := backfill_frame_condition [mergedEx]
  obtain ⟨hb, hleft, hiso, hclus, hsup⟩ := h 0 (by decide)
  exact ⟨by decide, hlen, hleft, hclus 2 (by decide)⟩

/-- Witness for the C5 theorem at the assigning cell 17 and two states that
agree on the two tables but not on the local variable. -/
theorem post_join_cells_read_only_witness :
    (runCell PostCell.cell17 stateEx).1.pm_gdf = stateEx.pm_gdf ∧
    (runCell PostCell.cell17 stateEx).1.world_map_plus_gdf = stateEx.world_map_plus_gdf ∧
    (runCell PostCell.cell17 stateEx).2 = (runCell PostCell.cell17 stateEx2).2 := by
  obtain ⟨⟨h1, h2⟩, h3⟩ := post_join_cells_read_only PostCell.cell17 stateEx stateEx2
  exact ⟨h1, h2, h3 rfl rfl⟩

/-- Witness for the C6 theorem at a concrete input. -/
theorem notebook_deterministic_witness :
    runNotebook inpEx = runNotebook inpEx :=
  notebook_deterministic inpEx inpEx rfl

/-- Witness for the C7 theorem at three rows, two of which share a country
and its labels. -/
theorem countries_keeps_every_assignment_witness :
    regionLabelsFunctionOfCountry [pmEx, pmEx2, pmEx3] ∧
    ∃ c ∈ countries [pmEx, pmEx2, pmEx3], c.iso3 = pmEx2.iso3 ∧
      c.super_region_name = pmEx2.super_region_name ∧
      c.cluster_region = pmEx2.cluster_region := by
  have hfn : regionLabelsFunctionOfCountry [pmEx, pmEx2, pmEx3] := by
    unfold regionLabelsFunctionOfCountry
    decide
  exact ⟨hfn, countries_keeps_every_assignment [pmEx, pmEx2, pmEx3] hfn pmEx2 (by decide)⟩

/-- Witness for the C8 theorem at a one-monitor table whose region values
avoid the fill values. -/
theorem categorical_backfill_succeeds_witness :
    (∀ r ∈ [pmEx], r.cluster_region ≠ 7) ∧
    (∀ r ∈ [pmEx], r.super_region_name ≠ "NA") ∧
    (∃ s, backfillColumn ([pmEx].map (fun r => r.cluster_region))
        ((leftMerge [worldEx] (countries [pmEx])).map (fun m => m.cluster_region)) 7
      = Except.ok s) ∧
    (∃ s, backfillColumn ([pmEx].map (fun r => r.super_region_name))
        ((leftMerge [worldEx] (countries [pmEx])).map (fun m => m.super_region_name)) "NA"
      = Except.ok s) := by
  obtain ⟨h1, h2⟩ := categorical_backfill_succeeds [pmEx] [worldEx] (by decide) (by decide)
  exact ⟨by decide, by decide, h1, h2⟩

/-- Witness for the C9 theorem at a three-monitor table. -/
theorem monitors_per_country_sorted_witness :
    List.Sorted (fun a b : String × Nat => b.2 ≤ a.2)
      (monitors_per_country [pmEx, pmEx2, pmEx3]) :=
  (monitors_per_country_sorted [pmEx, pmEx2, pmEx3]).1

/-- Witness for the C10 theorem at a four-column frame, checking that the
float column is untouched. -/
theorem astype_category_frame_condition_witness :
    2 < frameEx.cols.length ∧
    (astypeIntObjectCategory frameEx).cols.length = frameEx.cols.length ∧
    (astypeIntObjectCategory frameEx).cols.get ⟨2, by decide⟩
      = frameEx.cols.get ⟨2, by decide⟩ := by
  obtain ⟨hlen, h⟩ := astype_category_frame_condition frameEx
  obtain ⟨hj, hname, hcells, hfloat, _⟩ := h 2 (by decide)
  exact ⟨by decide, hlen, hfloat (by decide)⟩
